/-
Verification of the smart-city incident dashboard core against its design
specification.

The Python sources are shallowly embedded as executable Lean definitions:

* `app/data_store.py` — incidents, the id sequence, the seeded RNG, the
  status-update workflow and the sensor telemetry mutation;
* `app/analytics.py` — dashboard metric aggregation;
* `app/routes.py` (`simulate_event`) — the simulation cycle.

Conventions of the embedding:

* Timestamps (`datetime`) are rationals counting seconds; `None` is `Option`.
* Python dicts with a fixed key set become structures; the type-dependent
  sensor payload dict stays an association list of string keys.
* The module-level mutable state (`_incidents`, `_sensors`, `_rng`,
  `_incident_id_sequence`) is threaded explicitly: every operation takes the
  state it reads and returns the state it leaves behind.
* `random.Random(42)` is abstracted at draw granularity: the generator is an
  arbitrary pair of output streams plus a position, and each `choice` /
  `uniform` call consumes one position.  Theorems quantify over the streams.
* `raise ValueError` becomes an `Except.error` result; in the source the
  raise happens before any store mutation, so the error branch leaves the
  store exactly as it was.
* Python `round` (round-half-to-even) and `int` (truncation toward zero) are
  modelled exactly on rationals, idealising binary floating point.
-/
import Mathlib

namespace SmartCity

/-! ### Python numeric primitives -/

/-- Python `int(x)`: truncation toward zero. -/
def truncQ (x : ℚ) : ℤ :=
  if 0 ≤ x then ⌊x⌋ else -⌊-x⌋

/-- Python `round(x)` on an exact value: round half to even. -/
def roundHalfEven (x : ℚ) : ℤ :=
  let f := ⌊x⌋
  let frac := x - (f : ℚ)
  if frac < 1/2 then f
  else if 1/2 < frac then f + 1
  else if f % 2 = 0 then f else f + 1

/-- Python `round(x, d)` for a positive number of digits `d`. -/
def roundTo (d : ℕ) (x : ℚ) : ℚ :=
  (roundHalfEven (x * 10 ^ d) : ℚ) / 10 ^ d

theorem roundHalfEven_ge (x : ℚ) (a : ℤ) (h : (a : ℚ) ≤ x) :
    a ≤ roundHalfEven x := by
  have hf : a ≤ ⌊x⌋ := Int.le_floor.mpr h
  unfold roundHalfEven
  dsimp only
  split
  · exact hf
  · split
    · omega
    · split <;> omega

theorem roundHalfEven_le (x : ℚ) (b : ℤ) (h : x ≤ (b : ℚ)) :
    roundHalfEven x ≤ b := by
  have hfx : (⌊x⌋ : ℚ) ≤ x := Int.floor_le x
  have hfb : ⌊x⌋ ≤ b := by
    have := Int.floor_le_floor h
    simpa using this
  unfold roundHalfEven
  dsimp only
  by_cases hb : ⌊x⌋ = b
  · subst hb
    have h0 : x - (⌊x⌋ : ℚ) ≤ 0 := by linarith
    have hc : x - (⌊x⌋ : ℚ) < 1/2 := by linarith
    rw [if_pos hc]
  · have hlt : ⌊x⌋ + 1 ≤ b := by omega
    split
    · omega
    · split
      · omega
      · split <;> omega

theorem roundTo_ge (d : ℕ) (x : ℚ) (a : ℤ) (h : (a : ℚ) / 10 ^ d ≤ x) :
    (a : ℚ) / 10 ^ d ≤ roundTo d x := by
  have hpow : (0 : ℚ) < 10 ^ d := by positivity
  have h1 : (a : ℚ) ≤ x * 10 ^ d := by
    rw [div_le_iff₀ hpow] at h
    exact h
  have h2 := roundHalfEven_ge (x * 10 ^ d) a h1
  unfold roundTo
  rw [div_le_div_iff_of_pos_right hpow]
  exact_mod_cast h2

theorem roundTo_le (d : ℕ) (x : ℚ) (b : ℤ) (h : x ≤ (b : ℚ) / 10 ^ d) :
    roundTo d x ≤ (b : ℚ) / 10 ^ d := by
  have hpow : (0 : ℚ) < 10 ^ d := by positivity
  have h1 : x * 10 ^ d ≤ (b : ℚ) := by
    rw [le_div_iff₀ hpow] at h
    exact h
  have h2 := roundHalfEven_le (x * 10 ^ d) b h1
  unfold roundTo
  rw [div_le_div_iff_of_pos_right hpow]
  exact_mod_cast h2

/-! ### Data model (`app/data_store.py`) -/

/-- The fixed severity enumeration `SEVERITIES`. -/
def SEVERITIES : List String := ["low", "medium", "high", "critical"]

/-- The fixed status enumeration `STATUSES`. -/
def STATUSES : List String := ["open", "acknowledged", "resolved"]

/-- The fixed category enumeration `CATEGORIES`. -/
def CATEGORIES : List String :=
  ["Traffic", "Cybersecurity", "Public Safety", "Utilities", "Environmental"]

/-- An incident record, the dict shape built by `add_incident` and seeded in
`_incidents`.  Timestamps are rational seconds; nullable fields are `Option`. -/
structure Incident where
  id : ℤ
  title : String
  category : String
  severity : String
  status : String
  detected_at : ℚ
  acknowledged_at : Option ℚ
  resolved_at : Option ℚ
  location : String
  description : String
  impact : String
  root_cause : Option String
deriving DecidableEq

/-- The creation payload: the `data` dict passed to `add_incident`, with each
recognised key either present (`some`) or absent (`none`). -/
structure IncidentData where
  title : Option String := none
  category : Option String := none
  severity : Option String := none
  location : Option String := none
  description : Option String := none
  impact : Option String := none
deriving DecidableEq

/-- The shared seeded generator `_rng = random.Random(42)`, abstracted at draw
granularity: `nats` feeds `choice` (index selection), `rats` feeds `uniform`,
and `pos` counts the draws made so far.  Each call consumes one position. -/
structure RNG where
  nats : ℕ → ℕ
  rats : ℕ → ℚ
  pos : ℕ

/-- `_rng.choice(l)`: pick an element of `l`, consuming one draw. -/
def RNG.choice (r : RNG) (l : List String) : String × RNG :=
  (l.getD (r.nats r.pos % l.length) "", { r with pos := r.pos + 1 })

/-- `_rng.uniform(lo, hi)`: produce the next rational output, consuming one
draw.  (The interval bounds are not needed by any verified property.) -/
def RNG.uniformDraw (r : RNG) : ℚ × RNG :=
  (r.rats r.pos, { r with pos := r.pos + 1 })

/-- `add_incident(data)`.  The store, generator and id sequence are threaded
explicitly; `now` is the value of `_now()` during the call.  Note that Python
evaluates `data.get(key, default)` eagerly, so both `_rng.choice` calls run
before the presence of `"category"`/`"severity"` is consulted — the embedding
mirrors that order. -/
def add_incident (data : IncidentData) (incidents : List Incident) (rng : RNG)
    (seq : ℤ) (now : ℚ) : Incident × List Incident × RNG × ℤ :=
  let c1 := rng.choice CATEGORIES
  let c2 := c1.2.choice SEVERITIES
  let incident : Incident :=
    { id := seq
      title := data.title.getD "Unclassified incident"
      category := data.category.getD c1.1
      severity := data.severity.getD c2.1
      status := "open"
      detected_at := now
      acknowledged_at := none
      resolved_at := none
      location := data.location.getD "Unknown"
      description := data.description.getD "Generated from live sensor input."
      impact := data.impact.getD "Impact under investigation."
      root_cause := none }
  (incident, incidents ++ [incident], c2.2, seq + 1)

/-- The body of the `update_incident_status` loop for the matching incident:
set `status`, then apply the timestamp rules at time `now`. -/
def applyStatus (inc : Incident) (status : String) (now : ℚ) : Incident :=
  let i1 : Incident := { inc with status := status }
  let i2 : Incident :=
    if status = "acknowledged" ∧ i1.acknowledged_at = none then
      { i1 with acknowledged_at := some now }
    else i1
  if status = "resolved" then
    let i3 : Incident :=
      if i2.acknowledged_at = none then { i2 with acknowledged_at := some now }
      else i2
    { i3 with resolved_at := some now }
  else i2

/-- The `for incident in _incidents` search of `update_incident_status`:
update the first incident with the given id in place, returning the new list
and the updated record, or `none` when no id matches. -/
def updateGo (iid : ℤ) (status : String) (now : ℚ) :
    List Incident → Option (List Incident × Incident)
  | [] => none
  | inc :: rest =>
    if inc.id = iid then
      let inc2 := applyStatus inc status now
      some (inc2 :: rest, inc2)
    else
      match updateGo iid status now rest with
      | none => none
      | some (rest2, r) => some (inc :: rest2, r)

/-- `update_incident_status(incident_id, status)`.  An unsupported status
raises `ValueError` (the `Except.error` branch) before the store is touched;
otherwise the first matching incident is updated and a copy returned, or
`(incidents, none)` signals not-found. -/
def update_incident_status (incidents : List Incident) (iid : ℤ)
    (status : String) (now : ℚ) :
    Except String (List Incident × Option Incident) :=
  if status ∈ STATUSES then
    match updateGo iid status now incidents with
    | none => .ok (incidents, none)
    | some (incidents2, inc) => .ok (incidents2, some inc)
  else
    .error ("Unsupported incident status: " ++ status)

/-- The store left behind by a call to `update_incident_status`: on the
`ValueError` path the exception propagates before the loop runs, so the
caller observes the store unchanged. -/
def storeAfterUpdate (incidents : List Incident) (iid : ℤ) (status : String)
    (now : ℚ) : List Incident :=
  match update_incident_status incidents iid status now with
  | .error _ => incidents
  | .ok (incidents2, _) => incidents2

/-- The incident record returned by `update_incident_status`, when any. -/
def updatedIncident (incidents : List Incident) (iid : ℤ) (status : String)
    (now : ℚ) : Option Incident :=
  match update_incident_status incidents iid status now with
  | .ok (_, r) => r
  | .error _ => none

/-- `_incident_id_sequence = itertools.count(1001)`: the first id handed out. -/
def initialIncidentIdSeq : ℤ := 1001

/-- The seeded `_incidents` list; `t0` is the module-import time `_now()`. -/
def initialIncidents (t0 : ℚ) : List Incident :=
  [ { id := 1000
      title := "Traffic congestion at Central Station"
      category := "Traffic"
      severity := "high"
      status := "open"
      detected_at := t0 - 45 * 60
      acknowledged_at := none
      resolved_at := none
      location := "Central Station"
      description := "Multiple sensors detect congestion exceeding 85% capacity."
      impact := "Delays to public transport lines 2, 3, and 5."
      root_cause := none }
  , { id := 999
      title := "Unauthorized login attempts detected"
      category := "Cybersecurity"
      severity := "critical"
      status := "acknowledged"
      detected_at := t0 - (2 * 3600 + 15 * 60)
      acknowledged_at := some (t0 - 2 * 3600)
      resolved_at := none
      location := "Datacenter West"
      description := "Spike of failed logins against admin APIs."
      impact := "Potential service disruption for citizen portal."
      root_cause := some "Credential stuffing campaign" }
  , { id := 998
      title := "IoT air quality sensor offline"
      category := "Environmental"
      severity := "medium"
      status := "resolved"
      detected_at := t0 - 6 * 3600
      acknowledged_at := some (t0 - (5 * 3600 + 45 * 60))
      resolved_at := some (t0 - (5 * 3600 + 10 * 60))
      location := "Canal District"
      description := "No data received for over 10 minutes."
      impact := "Air quality predictions may be delayed."
      root_cause := some "Battery replacement required" } ]

/-! ### Sensors and the telemetry simulator (`app/data_store.py`) -/

/-- A sensor record.  The type-dependent `payload` dict is kept as an
association list of metric name to numeric value. -/
structure Sensor where
  id : String
  type : String
  location : String
  last_update : ℚ
  status : String
  payload : List (String × ℚ)
deriving DecidableEq

/-- `payload[k]`: dict read.  Every read in the source hits a key the
payload was seeded with, so the `0` fallback is never load-bearing. -/
def pget (p : List (String × ℚ)) (k : String) : ℚ :=
  match p.find? (fun kv => kv.1 == k) with
  | some kv => kv.2
  | none => 0

/-- `payload[k] = v`: dict write on an existing key. -/
def pset (p : List (String × ℚ)) (k : String) (v : ℚ) : List (String × ℚ) :=
  p.map (fun kv => if kv.1 == k then (kv.1, v) else kv)

/-- One iteration of the `mutate_sensor_payloads` loop body on a single
sensor, given the jitter drawn for it and the current time. -/
def tickSensor (s : Sensor) (jitter : ℚ) (now : ℚ) : Sensor :=
  let s1 : Sensor := { s with last_update := now }
  if s1.type = "Traffic" then
    let p := s1.payload
    let vc : ℚ := (max 0 (truncQ (pget p "vehicle_count" * (1 + jitter))) : ℤ)
    let sp : ℚ := max 0 (roundTo 1 (pget p "avg_speed_kmh" * (1 - jitter)))
    { s1 with
      payload := pset (pset p "vehicle_count" vc) "avg_speed_kmh" sp
      status := if sp < 10 then "alert" else "warning" }
  else if s1.type = "Utilities" then
    let p := s1.payload
    let cl : ℚ := roundTo 2 (max 0 (pget p "chlorine_ppm" * (1 + jitter)))
    let ph : ℚ := roundTo 2 (min 8.5 (max 6.5 (pget p "ph" + jitter)))
    { s1 with
      payload := pset (pset p "chlorine_ppm" cl) "ph" ph
      status := if 1.5 < cl then "warning" else "healthy" }
  else if s1.type = "Public Safety" then
    let p := s1.payload
    let an : ℚ := roundTo 2 (min 1 (max 0 (pget p "anomaly_score" + jitter / 2)))
    { s1 with
      payload := pset p "anomaly_score" an
      status := if 0.7 < an then "alert" else "healthy" }
  else s1

/-- `mutate_sensor_payloads()`: every sensor draws one jitter value from the
shared generator and is updated in place. -/
def mutate_sensor_payloads (sensors : List Sensor) (rng : RNG) (now : ℚ) :
    List Sensor × RNG :=
  match sensors with
  | [] => ([], rng)
  | s :: rest =>
    let d := rng.uniformDraw
    let r := mutate_sensor_payloads rest d.2 now
    (tickSensor s d.1 now :: r.1, r.2)

/-- `n` repeated simulation ticks; `clk i` is the wall-clock time of tick
`i`. -/
def iterateTicks (n : ℕ) (sensors : List Sensor) (rng : RNG) (clk : ℕ → ℚ) :
    List Sensor × RNG :=
  match n with
  | 0 => (sensors, rng)
  | k + 1 =>
    let r := mutate_sensor_payloads sensors rng (clk k)
    iterateTicks k r.1 r.2 (fun i => clk (i + 1))

/-- The seeded `_sensors` list; `t0` is the module-import time `_now()`. -/
def initialSensors (t0 : ℚ) : List Sensor :=
  [ { id := "traffic-001"
      type := "Traffic"
      location := "Central Station"
      last_update := t0 - 2 * 60
      status := "warning"
      payload := [("vehicle_count", 982), ("avg_speed_kmh", 8)] }
  , { id := "iot-443"
      type := "Utilities"
      location := "Water Treatment Plant"
      last_update := t0 - 6 * 60
      status := "healthy"
      payload := [("chlorine_ppm", 1.1), ("ph", 7.2)] }
  , { id := "cctv-901"
      type := "Public Safety"
      location := "Museum Quarter"
      last_update := t0 - 1 * 60
      status := "alert"
      payload := [("anomaly_score", 0.81)] } ]

/-- The documented clamps on a sensor payload: Public Safety
`anomaly_score ∈ [0, 1]`; Utilities `ph ∈ [6.5, 8.5]` and
`chlorine_ppm ≥ 0`; Traffic `vehicle_count ≥ 0` and `avg_speed_kmh ≥ 0`. -/
def sensorClamps (s : Sensor) : Prop :=
  (s.type = "Public Safety" →
    0 ≤ pget s.payload "anomaly_score" ∧ pget s.payload "anomaly_score" ≤ 1) ∧
  (s.type = "Utilities" →
    (6.5 : ℚ) ≤ pget s.payload "ph" ∧ pget s.payload "ph" ≤ 8.5 ∧
    0 ≤ pget s.payload "chlorine_ppm") ∧
  (s.type = "Traffic" →
    0 ≤ pget s.payload "vehicle_count" ∧ 0 ≤ pget s.payload "avg_speed_kmh")

instance (s : Sensor) : Decidable (sensorClamps s) := by
  unfold sensorClamps
  infer_instance

/-- A payload dict carries a key. -/
def hasKey (p : List (String × ℚ)) (k : String) : Prop :=
  (p.find? (fun kv => kv.1 == k)).isSome

instance (p : List (String × ℚ)) (k : String) : Decidable (hasKey p k) := by
  unfold hasKey
  infer_instance

/-- The keys each sensor type's payload was seeded with — the keys the
telemetry loop reads and writes. -/
def sensorKeysOK (s : Sensor) : Prop :=
  (s.type = "Public Safety" → hasKey s.payload "anomaly_score") ∧
  (s.type = "Utilities" → hasKey s.payload "ph" ∧ hasKey s.payload "chlorine_ppm") ∧
  (s.type = "Traffic" → hasKey s.payload "vehicle_count" ∧ hasKey s.payload "avg_speed_kmh")

instance (s : Sensor) : Decidable (sensorKeysOK s) := by
  unfold sensorKeysOK
  infer_instance

/-! ### Analytics (`app/analytics.py`) -/

/-- `_minutes_between(start, end)`; a `datetime` is always truthy and `None`
falsy, so the guard is exactly an `Option` test. -/
def minutesBetween (a : Option ℚ) (b : Option ℚ) : Option ℚ :=
  match a, b with
  | some s, some e => some ((e - s) / 60)
  | _, _ => none

/-- The `acknowledgement_times` comprehension: minutes from detection to
acknowledgement, over incidents whose `acknowledged_at` is set. -/
def acknowledgementTimes (incidents : List Incident) : List ℚ :=
  incidents.filterMap (fun i =>
    if i.acknowledged_at.isSome then
      minutesBetween (some i.detected_at) i.acknowledged_at
    else none)

/-- The `resolution_times` comprehension: minutes from the baseline
(`acknowledged_at or detected_at`, Python truthiness) to resolution, over
incidents whose `resolved_at` is set. -/
def resolutionTimes (incidents : List Incident) : List ℚ :=
  incidents.filterMap (fun i =>
    if i.resolved_at.isSome then
      minutesBetween
        (some (match i.acknowledged_at with
               | some a => a
               | none => i.detected_at))
        i.resolved_at
    else none)

/-- The metrics dict assembled by `calculate_metrics`.  The category and
severity `Counter`s are embedded as count functions; the hourly timeline
(not referenced by any verified property) is the multiset of hour buckets. -/
structure Metrics where
  total_incidents : ℕ
  status_breakdown : List (String × ℕ)
  category_breakdown : String → ℕ
  severity_breakdown : String → ℕ
  avg_ack_minutes : Option ℚ
  avg_resolution_minutes : Option ℚ

/-- `calculate_metrics(incidents)`. -/
def calculate_metrics (incidents : List Incident) : Metrics :=
  let ackTimes := acknowledgementTimes incidents
  let resTimes := resolutionTimes incidents
  { total_incidents := incidents.length
    status_breakdown :=
      STATUSES.map (fun s => (s, (incidents.filter (fun i => i.status == s)).length))
    category_breakdown := fun c => (incidents.filter (fun i => i.category == c)).length
    severity_breakdown := fun c => (incidents.filter (fun i => i.severity == c)).length
    avg_ack_minutes :=
      if ackTimes.isEmpty then none
      else some (roundTo 1 (ackTimes.sum / ackTimes.length))
    avg_resolution_minutes :=
      if resTimes.isEmpty then none
      else some (roundTo 1 (resTimes.sum / resTimes.length)) }

/-- The spec's wording for `avg_resolution_minutes`: over exactly the
incidents with a non-null `resolved_at`, average `(resolved_at − baseline)`
in minutes, the baseline being `acknowledged_at` when non-null and
`detected_at` otherwise; round to 1 decimal; `none` when no incident is
resolved. -/
def specAvgResolutionMinutes (incidents : List Incident) : Option ℚ :=
  let resolved := incidents.filter (fun i => i.resolved_at.isSome)
  let contribution : Incident → ℚ := fun i =>
    (i.resolved_at.getD 0 -
      (match i.acknowledged_at with
       | some a => a
       | none => i.detected_at)) / 60
  if resolved.isEmpty then none
  else some (roundTo 1 ((resolved.map contribution).sum / resolved.length))

/-! ### The simulation cycle (`app/routes.py`, `simulate_event`)

`classify_sensor_event` and `build_incident_recommendation` live in
`app/ai.py`, which is not part of the sources at hand; the cycle is
therefore parameterised by the classifier and the recommender, and every
property below holds for all of them. -/

/-- The result of `classify_sensor_event`: a risk score and a suggested
severity. -/
structure Classification where
  score : ℚ
  suggested_severity : String
deriving DecidableEq

/-- One entry of the `candidates` list: the classification dict merged with
its sensor (`classify_sensor_event(sensor) | {"sensor": sensor}`). -/
structure ScoredSensor where
  score : ℚ
  suggested_severity : String
  sensor : Sensor
deriving DecidableEq

/-- The `candidates` comprehension. -/
def candidatesOf (classify : Sensor → Classification) (sensors : List Sensor) :
    List ScoredSensor :=
  sensors.map (fun s =>
    { score := (classify s).score
      suggested_severity := (classify s).suggested_severity
      sensor := s })

/-- Stable descending insertion: place `x` before the first later element
whose score does not exceed it. -/
def insertCand (x : ScoredSensor) : List ScoredSensor → List ScoredSensor
  | [] => [x]
  | y :: ys => if y.score ≤ x.score then x :: y :: ys else y :: insertCand x ys

/-- `candidates.sort(key=score, reverse=True)`: a stable sort into descending
score order, embedded as insertion sort (extensionally the same list). -/
def sortCandidates : List ScoredSensor → List ScoredSensor
  | [] => []
  | x :: xs => insertCand x (sortCandidates xs)

/-- The state and response produced by one `POST /api/simulate` call. -/
structure SimResult where
  created_incident : Option Incident
  sensor_scores : List ScoredSensor
  sensors : List Sensor
  incidents : List Incident
  rng : RNG
  seq : ℤ

/-- `simulate_event()`: tick the simulator, classify every sensor, rank the
candidates by descending score, and when the top score reaches 0.5 create an
incident from the top sensor's recommendation.  `none` models the
`IndexError` of `candidates[0]` on an empty sensor list. -/
def simulate_event (classify : Sensor → Classification)
    (recommend : Sensor → IncidentData) (sensors : List Sensor)
    (incidents : List Incident) (rng : RNG) (seq : ℤ) (now : ℚ) :
    Option SimResult :=
  let m := mutate_sensor_payloads sensors rng now
  let sorted := sortCandidates (candidatesOf classify m.1)
  match sorted with
  | [] => none
  | top :: rest =>
    if 1/2 ≤ top.score then
      let a := add_incident (recommend top.sensor) incidents m.2 seq now
      some { created_incident := some a.1
             sensor_scores := top :: rest
             sensors := m.1
             incidents := a.2.1
             rng := a.2.2.1
             seq := a.2.2.2 }
    else
      some { created_incident := none
             sensor_scores := top :: rest
             sensors := m.1
             incidents := incidents
             rng := m.2
             seq := seq }

/-! ### Reference-vs-copy semantics of the read accessors

`get_incidents`, `get_incident` and `get_sensors` return `deepcopy`s.  To
state what a copy buys the caller, records are placed on an explicit heap of
cells addressed by allocation order; the canonical collection holds
addresses, `deepcopy` allocates a fresh cell per returned record, and a
caller "mutating what it was returned" writes to the returned addresses. -/

/-- A heap of records of type `α`; the address of a cell is its index. -/
structure Heap (α : Type) where
  cells : List α

/-- Read the cell at address `a` (`d` is an arbitrary default for dangling
addresses, which never arise under the store invariant). -/
def Heap.read (h : Heap α) (d : α) (a : ℕ) : α :=
  h.cells.getD a d

/-- Allocate a fresh cell holding `v`; its address is fresh by construction. -/
def Heap.alloc (h : Heap α) (v : α) : Heap α × ℕ :=
  (⟨h.cells ++ [v]⟩, h.cells.length)

/-- Overwrite the cell at address `a` — the caller mutating a record it
holds a reference to. -/
def Heap.write (h : Heap α) (a : ℕ) (v : α) : Heap α :=
  ⟨h.cells.set a v⟩

/-- Apply a sequence of caller mutations. -/
def writeMany (h : Heap α) (ms : List (ℕ × α)) : Heap α :=
  ms.foldl (fun acc m => acc.write m.1 m.2) h

/-- The record values a read accessor copies out: the cells at the canonical
collection's addresses, in order. -/
def readAll (h : Heap α) (d : α) (addrs : List ℕ) : List α :=
  addrs.map (h.read d)

/-- `deepcopy` each value in turn: allocate a fresh cell per record and hand
the caller the fresh addresses. -/
def allocCopies (h : Heap α) (vs : List α) : Heap α × List ℕ :=
  match vs with
  | [] => (h, [])
  | v :: rest =>
    let a := h.alloc v
    let r := allocCopies a.1 rest
    (r.1, a.2 :: r.2)

/-- A read accessor over the heap: copy out every record of the canonical
collection `store` and return the copies' addresses.  (`get_incidents`
additionally sorts the copies by detection time and `get_incident` copies a
single record; both only change which fresh addresses come back, not their
freshness.) -/
def hGetAll (h : Heap α) (d : α) (store : List ℕ) : Heap α × List ℕ :=
  allocCopies h (readAll h d store)

/-! ### Lemmas on the status-update workflow -/

theorem updateGo_found (iid : ℤ) (status : String) (now : ℚ) :
    ∀ incidents : List Incident, (∃ i ∈ incidents, i.id = iid) →
    ∃ i0 incidents2,
      incidents.find? (fun i => i.id == iid) = some i0 ∧
      updateGo iid status now incidents =
        some (incidents2, applyStatus i0 status now) := by
  intro incidents
  induction incidents with
  | nil =>
      rintro ⟨i, hi, -⟩
      simp at hi
  | cons a l ih =>
      rintro ⟨i, hi, he⟩
      by_cases ha : a.id = iid
      · refine ⟨a, applyStatus a status now :: l, ?_, ?_⟩
        · rw [List.find?_cons_of_pos _ (by simp [ha])]
        · simp [updateGo, ha]
      · have hl : ∃ j ∈ l, j.id = iid := by
          rcases List.mem_cons.mp hi with h1 | h1
          · subst h1; exact absurd he ha
          · exact ⟨i, h1, he⟩
        rcases ih hl with ⟨i0, l2, hf, hg⟩
        refine ⟨i0, a :: l2, ?_, ?_⟩
        · rw [List.find?_cons_of_neg _ (by simp [ha])]
          exact hf
        · simp [updateGo, ha, hg]

theorem update_valid_found (incidents : List Incident) (iid : ℤ)
    (status : String) (now : ℚ) (hs : status ∈ STATUSES)
    (hmem : ∃ i ∈ incidents, i.id = iid) :
    ∃ i0 incidents2,
      incidents.find? (fun i => i.id == iid) = some i0 ∧
      update_incident_status incidents iid status now =
        .ok (incidents2, some (applyStatus i0 status now)) := by
  rcases updateGo_found iid status now incidents hmem with ⟨i0, incs2, hf, hg⟩
  refine ⟨i0, incs2, hf, ?_⟩
  unfold update_incident_status
  rw [if_pos hs, hg]

theorem applyStatus_status (inc : Incident) (s : String) (now : ℚ) :
    (applyStatus inc s now).status = s := by
  simp only [applyStatus]
  split_ifs <;> rfl

theorem applyStatus_resolved_fields (inc : Incident) (now : ℚ) :
    (applyStatus inc "resolved" now).acknowledged_at =
      some (inc.acknowledged_at.getD now) ∧
    (applyStatus inc "resolved" now).resolved_at = some now := by
  cases h : inc.acknowledged_at with
  | none => simp [applyStatus, h]
  | some t => simp [applyStatus, h]

theorem applyStatus_ack_fields (inc : Incident) (now : ℚ) :
    (applyStatus inc "acknowledged" now).acknowledged_at =
      some (inc.acknowledged_at.getD now) ∧
    (applyStatus inc "acknowledged" now).resolved_at = inc.resolved_at := by
  cases h : inc.acknowledged_at with
  | none => simp [applyStatus, h]
  | some t => simp [applyStatus, h]

theorem applyStatus_open_fields (inc : Incident) (now : ℚ) :
    (applyStatus inc "open" now).acknowledged_at = inc.acknowledged_at ∧
    (applyStatus inc "open" now).resolved_at = inc.resolved_at := by
  simp [applyStatus]

/-! ### Claim theorems: the status-update workflow -/

/-- C1: for every incident id present in the store,
`update_incident_status(id, "resolved")` returns an incident whose
`acknowledged_at` and `resolved_at` are both non-null with
`acknowledged_at ≤ resolved_at`; a previously set `acknowledged_at` is
preserved unchanged and `resolved_at` is at least that original value.
(`hclock`: every recorded acknowledgement time is no later than the current
call's clock reading.) -/
theorem update_resolved_timestamps (incidents : List Incident) (iid : ℤ)
    (now : ℚ) (hmem : ∃ i ∈ incidents, i.id = iid)
    (hclock : ∀ i ∈ incidents, ∀ t, i.acknowledged_at = some t → t ≤ now) :
    ∃ i0 incidents2 r,
      incidents.find? (fun i => i.id == iid) = some i0 ∧
      update_incident_status incidents iid "resolved" now =
        .ok (incidents2, some r) ∧
      r.acknowledged_at = some (i0.acknowledged_at.getD now) ∧
      r.resolved_at = some now ∧
      (∀ ta tr, r.acknowledged_at = some ta → r.resolved_at = some tr →
        ta ≤ tr) ∧
      (∀ t, i0.acknowledged_at = some t →
        r.acknowledged_at = some t ∧ t ≤ now) := by
  rcases update_valid_found incidents iid "resolved" now (by decide) hmem with
    ⟨i0, incs2, hf, hup⟩
  have hfields := applyStatus_resolved_fields i0 now
  have hi0mem : i0 ∈ incidents := List.mem_of_find?_eq_some hf
  refine ⟨i0, incs2, applyStatus i0 "resolved" now, hf, hup, hfields.1,
    hfields.2, ?_, ?_⟩
  · intro ta tr hta htr
    rw [hfields.1] at hta
    rw [hfields.2] at htr
    have hrtr : tr = now := (Option.some.inj htr).symm
    subst hrtr
    cases hack : i0.acknowledged_at with
    | none =>
        rw [hack] at hta
        simp only [Option.getD_none] at hta
        exact le_of_eq (Option.some.inj hta).symm
    | some t =>
        rw [hack] at hta
        simp only [Option.getD_some] at hta
        have h := Option.some.inj hta
        subst h
        exact hclock i0 hi0mem t hack
  · intro t ht
    constructor
    · rw [hfields.1, ht]
      rfl
    · exact hclock i0 hi0mem t ht

/-- Witness for C1 at a concrete store: one incident with id 5, already
acknowledged at time 10, resolved at clock time 20. -/
theorem update_resolved_timestamps_witness :
    ∃ i0 incidents2 r,
      ([⟨5, "t", "Traffic", "low", "acknowledged", 0, some 10, none, "l",
         "d", "i", none⟩] : List Incident).find? (fun i => i.id == 5) =
          some i0 ∧
      update_incident_status
        [⟨5, "t", "Traffic", "low", "acknowledged", 0, some 10, none, "l",
          "d", "i", none⟩] 5 "resolved" 20 = .ok (incidents2, some r) ∧
      r.acknowledged_at = some (i0.acknowledged_at.getD 20) ∧
      r.resolved_at = some 20 ∧
      (∀ ta tr, r.acknowledged_at = some ta → r.resolved_at = some tr →
        ta ≤ tr) ∧
      (∀ t, i0.acknowledged_at = some t →
        r.acknowledged_at = some t ∧ t ≤ 20) := by
  refine update_resolved_timestamps _ 5 20 ⟨_, List.mem_singleton.mpr rfl, rfl⟩ ?_
  intro i hi t ht
  rw [List.mem_singleton] at hi
  subst hi
  simp only at ht
  injection ht with h
  rw [← h]
  norm_num

/-- C2: an unsupported status makes `update_incident_status` fail with a
`ValueError` whose message names the offending value, and the store is left
exactly as it was (the raise precedes the mutation loop). -/
theorem update_invalid_status (incidents : List Incident) (iid : ℤ)
    (status : String) (now : ℚ) (hs : status ∉ STATUSES) :
    update_incident_status incidents iid status now =
      .error ("Unsupported incident status: " ++ status) ∧
    storeAfterUpdate incidents iid status now = incidents := by
  constructor
  · unfold update_incident_status
    rw [if_neg hs]
  · unfold storeAfterUpdate update_incident_status
    rw [if_neg hs]

/-- Witness for C2: the spec's own example status `"bogus"`. -/
theorem update_invalid_status_witness :
    ("bogus" ∉ STATUSES) ∧
    update_incident_status (initialIncidents 0) 1000 "bogus" 7 =
      .error ("Unsupported incident status: " ++ "bogus") ∧
    storeAfterUpdate (initialIncidents 0) 1000 "bogus" 7 =
      initialIncidents 0 :=
  ⟨by decide, update_invalid_status (initialIncidents 0) 1000 "bogus" 7
    (by decide)⟩

/-- The already-resolved incident used to refute the re-application claim:
acknowledged at time 10, resolved at time 20. -/
def reresolvedInc : Incident :=
  ⟨1, "t", "Traffic", "low", "resolved", 0, some 10, some 20, "l", "d", "i",
    none⟩

/-- C3, counterexample: re-applying `"resolved"` at time 30 to an incident
already resolved at time 20 overwrites `resolved_at` with 30, so an
already-set timestamp is not preserved. -/
theorem reresolve_overwrites_resolved_at :
    (updatedIncident [reresolvedInc] 1 "resolved" 30).map
      Incident.resolved_at = some (some 30) ∧
    reresolvedInc.resolved_at = some 20 ∧
    (updatedIncident [reresolvedInc] 1 "resolved" 30).map
      Incident.resolved_at ≠ some reresolvedInc.resolved_at := by
  decide

/-- C3 as amended: re-applying an incident's current status never changes
`acknowledged_at` once the lifecycle has set it, and leaves `resolved_at`
unchanged for `"open"` and `"acknowledged"`; re-applying `"resolved"`,
however, overwrites `resolved_at` with the time of the call. -/
theorem update_same_status_amended (incidents : List Incident) (iid : ℤ)
    (now : ℚ) (i0 : Incident)
    (hfind : incidents.find? (fun i => i.id == iid) = some i0)
    (hst : i0.status ∈ STATUSES)
    (hack : i0.status = "acknowledged" ∨ i0.status = "resolved" →
      i0.acknowledged_at.isSome) :
    ∃ incidents2 r,
      update_incident_status incidents iid i0.status now =
        .ok (incidents2, some r) ∧
      r.status = i0.status ∧
      r.acknowledged_at = i0.acknowledged_at ∧
      r.resolved_at =
        (if i0.status = "resolved" then some now else i0.resolved_at) := by
  have hmem : ∃ i ∈ incidents, i.id = iid := by
    refine ⟨i0, List.mem_of_find?_eq_some hfind, ?_⟩
    have := List.find?_some hfind
    exact beq_iff_eq.mp this
  rcases update_valid_found incidents iid i0.status now hst hmem with
    ⟨i1, incs2, hf, hup⟩
  have he : i0 = i1 := by
    rw [hfind] at hf
    exact Option.some.inj hf
  rw [← he] at hup
  have hcases : i0.status = "open" ∨ i0.status = "acknowledged" ∨
      i0.status = "resolved" := by
    simpa [STATUSES] using hst
  refine ⟨incs2, applyStatus i0 i0.status now, hup,
    applyStatus_status i0 i0.status now, ?_, ?_⟩
  · rcases hcases with h | h | h
    · rw [h]
      exact (applyStatus_open_fields i0 now).1
    · rw [h]
      rw [(applyStatus_ack_fields i0 now).1]
      rcases Option.isSome_iff_exists.mp (hack (Or.inl h)) with ⟨t, ht⟩
      rw [ht]
      rfl
    · rw [h]
      rw [(applyStatus_resolved_fields i0 now).1]
      rcases Option.isSome_iff_exists.mp (hack (Or.inr h)) with ⟨t, ht⟩
      rw [ht]
      rfl
  · rcases hcases with h | h | h
    · rw [h]
      rw [if_neg (show ¬("open" : String) = "resolved" by decide)]
      exact (applyStatus_open_fields i0 now).2
    · rw [h]
      rw [if_neg (show ¬("acknowledged" : String) = "resolved" by decide)]
      exact (applyStatus_ack_fields i0 now).2
    · rw [h]
      rw [if_pos rfl]
      exact (applyStatus_resolved_fields i0 now).2

/-- Witness for the amended C3 on an acknowledged incident: re-applying
`"acknowledged"` at time 30 changes neither timestamp. -/
theorem update_same_status_amended_witness :
    ∃ incidents2 r,
      update_incident_status
        [⟨5, "t", "Traffic", "low", "acknowledged", 0, some 10, none, "l",
          "d", "i", none⟩] 5 "acknowledged" 30 = .ok (incidents2, some r) ∧
      r.status = "acknowledged" ∧
      r.acknowledged_at = some 10 ∧
      r.resolved_at = none := by
  have h := update_same_status_amended
    [⟨5, "t", "Traffic", "low", "acknowledged", 0, some 10, none, "l", "d",
      "i", none⟩] 5 30
    ⟨5, "t", "Traffic", "low", "acknowledged", 0, some 10, none, "l", "d",
      "i", none⟩ (by decide) (by decide) (by intro h2; decide)
  simpa using h

/-- C4: every status in the fixed enumeration is accepted for an existing
incident and is written verbatim to the `status` field, backward lifecycle
moves included. -/
theorem update_accepts_any_listed_status (incidents : List Incident)
    (iid : ℤ) (now : ℚ) (s : String) (hs : s ∈ STATUSES)
    (hmem : ∃ i ∈ incidents, i.id = iid) :
    ∃ incidents2 r,
      update_incident_status incidents iid s now = .ok (incidents2, some r) ∧
      r.status = s := by
  rcases update_valid_found incidents iid s now hs hmem with
    ⟨i0, incs2, -, hup⟩
  exact ⟨incs2, applyStatus i0 s now, hup, applyStatus_status i0 s now⟩

/-- Witness for C4: a resolved incident moved back to `"open"` is not
rejected. -/
theorem update_accepts_any_listed_status_witness :
    ∃ incidents2 r,
      update_incident_status [reresolvedInc] 1 "open" 40 =
        .ok (incidents2, some r) ∧
      r.status = "open" :=
  update_accepts_any_listed_status [reresolvedInc] 1 40 "open" (by decide)
    ⟨reresolvedInc, List.mem_singleton.mpr rfl, rfl⟩

/-! ### Claim theorems: incident creation -/

theorem RNG.choice_mem (r : RNG) (l : List String) (hl : l ≠ []) :
    (r.choice l).1 ∈ l := by
  unfold RNG.choice
  have hlen : 0 < l.length := List.length_pos.mpr hl
  have hlt : r.nats r.pos % l.length < l.length := Nat.mod_lt _ hlen
  simp only
  rw [List.getD_eq_getElem l "" hlt]
  exact List.getElem_mem hlt

/-- C5: `add_incident` hands out the next sequential id — strictly larger
than every id in the store, the sequence starting at 1001 (above the seeded
ids) and never reused — creates the incident `open` with null
`acknowledged_at`/`resolved_at`/`root_cause` and `detected_at = now`, fills
each missing field with its documented default (category/severity drawn from
the fixed enumerations, location `"Unknown"`, boilerplate title, description
and impact), and appends the new record to the canonical collection. -/
theorem add_incident_spec (data : IncidentData) (incidents : List Incident)
    (rng : RNG) (seq : ℤ) (now : ℚ)
    (hseq : ∀ i ∈ incidents, i.id < seq) :
    initialIncidentIdSeq = 1001 ∧
    (∀ t0 : ℚ, ∀ i ∈ initialIncidents t0, i.id < initialIncidentIdSeq) ∧
    (add_incident data incidents rng seq now).1.id = seq ∧
    (∀ i ∈ incidents, i.id < (add_incident data incidents rng seq now).1.id) ∧
    (add_incident data incidents rng seq now).1.status = "open" ∧
    (add_incident data incidents rng seq now).1.acknowledged_at = none ∧
    (add_incident data incidents rng seq now).1.resolved_at = none ∧
    (add_incident data incidents rng seq now).1.root_cause = none ∧
    (add_incident data incidents rng seq now).1.detected_at = now ∧
    (data.title = none →
      (add_incident data incidents rng seq now).1.title =
        "Unclassified incident") ∧
    (data.category = none →
      (add_incident data incidents rng seq now).1.category ∈ CATEGORIES) ∧
    (data.severity = none →
      (add_incident data incidents rng seq now).1.severity ∈ SEVERITIES) ∧
    (data.location = none →
      (add_incident data incidents rng seq now).1.location = "Unknown") ∧
    (data.description = none →
      (add_incident data incidents rng seq now).1.description =
        "Generated from live sensor input.") ∧
    (data.impact = none →
      (add_incident data incidents rng seq now).1.impact =
        "Impact under investigation.") ∧
    (add_incident data incidents rng seq now).2.1 =
      incidents ++ [(add_incident data incidents rng seq now).1] ∧
    (add_incident data incidents rng seq now).2.2.2 = seq + 1 ∧
    (∀ i ∈ (add_incident data incidents rng seq now).2.1,
      i.id < (add_incident data incidents rng seq now).2.2.2) := by
  refine ⟨rfl, ?_, rfl, ?_, rfl, rfl, rfl, rfl, rfl, ?_, ?_, ?_, ?_,
    ?_, ?_, rfl, rfl, ?_⟩
  · intro t0 i hi
    simp only [initialIncidents, List.mem_cons, List.not_mem_nil,
      or_false] at hi
    rcases hi with h | h | h <;> subst h <;> norm_num [initialIncidentIdSeq]
  · intro i hi
    exact hseq i hi
  · intro h
    simp [add_incident, h]
  · intro h
    simp only [add_incident, h, Option.getD_none]
    exact RNG.choice_mem rng CATEGORIES (by decide)
  · intro h
    simp only [add_incident, h, Option.getD_none]
    exact RNG.choice_mem (rng.choice CATEGORIES).2 SEVERITIES (by decide)
  · intro h
    simp [add_incident, h]
  · intro h
    simp [add_incident, h]
  · intro h
    simp [add_incident, h]
  · intro i hi
    have h2 : (add_incident data incidents rng seq now).2.1 =
        incidents ++ [(add_incident data incidents rng seq now).1] := rfl
    rw [h2, List.mem_append, List.mem_singleton] at hi
    show i.id < seq + 1
    rcases hi with hi | hi
    · have := hseq i hi
      omega
    · subst hi
      show seq < seq + 1
      omega

/-- Witness for C5: the empty creation payload against the seeded store at
the initial sequence value 1001. -/
theorem add_incident_spec_witness :
    initialIncidentIdSeq = 1001 ∧
    (∀ t0 : ℚ, ∀ i ∈ initialIncidents t0, i.id < initialIncidentIdSeq) ∧
    (add_incident {} (initialIncidents 0) ⟨fun _ => 0, fun _ => 0, 0⟩
      1001 5).1.id = 1001 ∧
    (∀ i ∈ initialIncidents 0,
      i.id < (add_incident {} (initialIncidents 0)
        ⟨fun _ => 0, fun _ => 0, 0⟩ 1001 5).1.id) ∧
    (add_incident {} (initialIncidents 0) ⟨fun _ => 0, fun _ => 0, 0⟩
      1001 5).1.status = "open" ∧
    (add_incident {} (initialIncidents 0) ⟨fun _ => 0, fun _ => 0, 0⟩
      1001 5).1.acknowledged_at = none ∧
    (add_incident {} (initialIncidents 0) ⟨fun _ => 0, fun _ => 0, 0⟩
      1001 5).1.resolved_at = none ∧
    (add_incident {} (initialIncidents 0) ⟨fun _ => 0, fun _ => 0, 0⟩
      1001 5).1.root_cause = none ∧
    (add_incident {} (initialIncidents 0) ⟨fun _ => 0, fun _ => 0, 0⟩
      1001 5).1.detected_at = 5 ∧
    (({} : IncidentData).title = none →
      (add_incident {} (initialIncidents 0) ⟨fun _ => 0, fun _ => 0, 0⟩
        1001 5).1.title = "Unclassified incident") ∧
    (({} : IncidentData).category = none →
      (add_incident {} (initialIncidents 0) ⟨fun _ => 0, fun _ => 0, 0⟩
        1001 5).1.category ∈ CATEGORIES) ∧
    (({} : IncidentData).severity = none →
      (add_incident {} (initialIncidents 0) ⟨fun _ => 0, fun _ => 0, 0⟩
        1001 5).1.severity ∈ SEVERITIES) ∧
    (({} : IncidentData).location = none →
      (add_incident {} (initialIncidents 0) ⟨fun _ => 0, fun _ => 0, 0⟩
        1001 5).1.location = "Unknown") ∧
    (({} : IncidentData).description = none →
      (add_incident {} (initialIncidents 0) ⟨fun _ => 0, fun _ => 0, 0⟩
        1001 5).1.description = "Generated from live sensor input.") ∧
    (({} : IncidentData).impact = none →
      (add_incident {} (initialIncidents 0) ⟨fun _ => 0, fun _ => 0, 0⟩
        1001 5).1.impact = "Impact under investigation.") ∧
    (add_incident {} (initialIncidents 0) ⟨fun _ => 0, fun _ => 0, 0⟩
      1001 5).2.1 =
      initialIncidents 0 ++
        [(add_incident {} (initialIncidents 0) ⟨fun _ => 0, fun _ => 0, 0⟩
          1001 5).1] ∧
    (add_incident {} (initialIncidents 0) ⟨fun _ => 0, fun _ => 0, 0⟩
      1001 5).2.2.2 = 1001 + 1 ∧
    (∀ i ∈ (add_incident {} (initialIncidents 0)
        ⟨fun _ => 0, fun _ => 0, 0⟩ 1001 5).2.1,
      i.id < (add_incident {} (initialIncidents 0)
        ⟨fun _ => 0, fun _ => 0, 0⟩ 1001 5).2.2.2) := by
  exact add_incident_spec {} (initialIncidents 0)
    ⟨fun _ => 0, fun _ => 0, 0⟩ 1001 5 (by decide)

/-- C10: both `_rng.choice` defaults in `add_incident` are evaluated eagerly,
so every call advances the shared generator by exactly two draws even when
`category` and `severity` are supplied (in which case the drawn values are
discarded); the next sensor-jitter draw therefore reads position
`pos + 2` of the stream instead of `pos`. -/
theorem add_incident_advances_rng (data : IncidentData)
    (incidents : List Incident) (rng : RNG) (seq : ℤ) (now now2 : ℚ)
    (s0 : Sensor) (rest : List Sensor) (c s : String)
    (hcat : data.category = some c) (hsev : data.severity = some s) :
    (add_incident data incidents rng seq now).2.2.1.pos = rng.pos + 2 ∧
    (add_incident data incidents rng seq now).2.2.1.nats = rng.nats ∧
    (add_incident data incidents rng seq now).2.2.1.rats = rng.rats ∧
    (add_incident data incidents rng seq now).1.category = c ∧
    (add_incident data incidents rng seq now).1.severity = s ∧
    (RNG.uniformDraw rng).1 = rng.rats rng.pos ∧
    (RNG.uniformDraw (add_incident data incidents rng seq now).2.2.1).1 =
      rng.rats (rng.pos + 2) ∧
    (mutate_sensor_payloads (s0 :: rest)
        (add_incident data incidents rng seq now).2.2.1 now2).1 =
      tickSensor s0 (rng.rats (rng.pos + 2)) now2 ::
        (mutate_sensor_payloads rest
          ⟨rng.nats, rng.rats, rng.pos + 3⟩ now2).1 := by
  refine ⟨rfl, rfl, rfl, ?_, ?_, rfl, rfl, ?_⟩
  · simp [add_incident, hcat]
  · simp [add_incident, hsev]
  · simp only [add_incident, RNG.choice, mutate_sensor_payloads,
      RNG.uniformDraw]

/-- The creation payload with every field supplied, used to witness the
eager-draw effect. -/
def fullData : IncidentData :=
  ⟨some "T", some "Traffic", some "low", some "L", some "D", some "I"⟩

/-- A concrete generator whose rational stream is the position itself, so a
shifted read is visible in the drawn value. -/
def rngW : RNG := ⟨fun n => n, fun n => (n : ℚ), 0⟩

/-- The first seeded sensor, used to witness the jitter shift. -/
def sensorW : Sensor :=
  { id := "traffic-001"
    type := "Traffic"
    location := "Central Station"
    last_update := 0
    status := "warning"
    payload := [("vehicle_count", 982), ("avg_speed_kmh", 8)] }

/-- Witness for C10: a fully specified creation payload still advances the
generator past two draws, and the next jitter comes from position 2. -/
theorem add_incident_advances_rng_witness :
    (add_incident fullData [] rngW 1001 5).2.2.1.pos = rngW.pos + 2 ∧
    (add_incident fullData [] rngW 1001 5).2.2.1.nats = rngW.nats ∧
    (add_incident fullData [] rngW 1001 5).2.2.1.rats = rngW.rats ∧
    (add_incident fullData [] rngW 1001 5).1.category = "Traffic" ∧
    (add_incident fullData [] rngW 1001 5).1.severity = "low" ∧
    (RNG.uniformDraw rngW).1 = rngW.rats rngW.pos ∧
    (RNG.uniformDraw (add_incident fullData [] rngW 1001 5).2.2.1).1 =
      rngW.rats (rngW.pos + 2) ∧
    (mutate_sensor_payloads [sensorW]
        (add_incident fullData [] rngW 1001 5).2.2.1 9).1 =
      tickSensor sensorW (rngW.rats (rngW.pos + 2)) 9 ::
        (mutate_sensor_payloads []
          ⟨rngW.nats, rngW.rats, rngW.pos + 3⟩ 9).1 :=
  add_incident_advances_rng fullData [] rngW 1001 5 9 sensorW []
    "Traffic" "low" rfl rfl

/-! ### Payload dict lemmas -/

theorem pset_cons (a : String × ℚ) (rest : List (String × ℚ)) (k : String)
    (v : ℚ) :
    pset (a :: rest) k v =
      (if a.1 == k then (a.1, v) else a) :: pset rest k v := rfl

theorem pget_cons (a : String × ℚ) (rest : List (String × ℚ)) (k : String) :
    pget (a :: rest) k = if a.1 = k then a.2 else pget rest k := by
  unfold pget
  by_cases h : a.1 = k
  · rw [List.find?_cons_of_pos _ (by simpa using h), if_pos h]
  · rw [List.find?_cons_of_neg _ (by simpa using h), if_neg h]

theorem hasKey_cons (a : String × ℚ) (rest : List (String × ℚ))
    (k : String) :
    hasKey (a :: rest) k ↔ a.1 = k ∨ hasKey rest k := by
  unfold hasKey
  by_cases h : a.1 = k
  · rw [List.find?_cons_of_pos _ (by simpa using h)]
    simp [h]
  · rw [List.find?_cons_of_neg _ (by simpa using h)]
    simp [h]

theorem pget_pset_self (k : String) (v : ℚ) :
    ∀ p : List (String × ℚ), hasKey p k → pget (pset p k v) k = v := by
  intro p
  induction p with
  | nil =>
      intro h
      simp [hasKey] at h
  | cons a rest ih =>
      intro h
      rw [pset_cons]
      by_cases ha : a.1 = k
      · rw [if_pos (by simpa using ha), pget_cons]
        simp [ha]
      · rw [if_neg (by simpa using ha), pget_cons, if_neg ha]
        rcases (hasKey_cons a rest k).mp h with h1 | h1
        · exact absurd h1 ha
        · exact ih h1

theorem pget_pset_ne (k k' : String) (v : ℚ) (hne : k' ≠ k) :
    ∀ p : List (String × ℚ), pget (pset p k v) k' = pget p k' := by
  intro p
  induction p with
  | nil => rfl
  | cons a rest ih =>
      rw [pset_cons]
      by_cases ha : a.1 = k
      · have hak' : ¬a.1 = k' := by
          rw [ha]
          exact fun hh => hne hh.symm
        rw [if_pos (by simpa using ha), pget_cons, pget_cons,
          if_neg (show ¬(a.1, v).1 = k' from hak'), if_neg hak']
        exact ih
      · rw [if_neg (by simpa using ha), pget_cons, pget_cons]
        by_cases hak' : a.1 = k'
        · rw [if_pos hak', if_pos hak']
        · rw [if_neg hak', if_neg hak']
          exact ih

theorem hasKey_pset (k k' : String) (v : ℚ) :
    ∀ p : List (String × ℚ), hasKey (pset p k v) k' ↔ hasKey p k' := by
  intro p
  induction p with
  | nil => exact Iff.rfl
  | cons a rest ih =>
      rw [pset_cons]
      by_cases ha : a.1 = k
      · rw [if_pos (by simpa using ha), hasKey_cons, hasKey_cons]
        exact or_congr Iff.rfl ih
      · rw [if_neg (by simpa using ha), hasKey_cons, hasKey_cons]
        exact or_congr Iff.rfl ih

theorem pget_eval_head (k : String) (v : ℚ) (rest : List (String × ℚ)) :
    pget ((k, v) :: rest) k = v := by
  rw [pget_cons, if_pos rfl]

theorem pget_eval_tail (a : String × ℚ) (rest : List (String × ℚ))
    (k : String) (h : ¬a.1 = k) : pget (a :: rest) k = pget rest k := by
  rw [pget_cons, if_neg h]

theorem roundTo_nonneg (d : ℕ) (x : ℚ) (h : 0 ≤ x) : 0 ≤ roundTo d x := by
  have h0 : ((0 : ℤ) : ℚ) / 10 ^ d ≤ x := by simpa using h
  have := roundTo_ge d x 0 h0
  simpa using this

/-! ### The telemetry clamps -/

theorem tickSensor_traffic_eq (sid sloc sst : String) (slu j now : ℚ)
    (sp : List (String × ℚ)) :
    tickSensor ⟨sid, "Traffic", sloc, slu, sst, sp⟩ j now =
      ⟨sid, "Traffic", sloc, now,
        if max 0 (roundTo 1 (pget sp "avg_speed_kmh" * (1 - j))) < 10
          then "alert" else "warning",
        pset (pset sp "vehicle_count"
            ((max 0 (truncQ (pget sp "vehicle_count" * (1 + j))) : ℤ) : ℚ))
          "avg_speed_kmh"
          (max 0 (roundTo 1 (pget sp "avg_speed_kmh" * (1 - j))))⟩ := rfl

theorem tickSensor_utilities_eq (sid sloc sst : String) (slu j now : ℚ)
    (sp : List (String × ℚ)) :
    tickSensor ⟨sid, "Utilities", sloc, slu, sst, sp⟩ j now =
      ⟨sid, "Utilities", sloc, now,
        if 1.5 < roundTo 2 (max 0 (pget sp "chlorine_ppm" * (1 + j)))
          then "warning" else "healthy",
        pset (pset sp "chlorine_ppm"
            (roundTo 2 (max 0 (pget sp "chlorine_ppm" * (1 + j)))))
          "ph" (roundTo 2 (min 8.5 (max 6.5 (pget sp "ph" + j))))⟩ := rfl

theorem tickSensor_publicSafety_eq (sid sloc sst : String) (slu j now : ℚ)
    (sp : List (String × ℚ)) :
    tickSensor ⟨sid, "Public Safety", sloc, slu, sst, sp⟩ j now =
      ⟨sid, "Public Safety", sloc, now,
        if 0.7 < roundTo 2 (min 1 (max 0 (pget sp "anomaly_score" + j / 2)))
          then "alert" else "healthy",
        pset sp "anomaly_score"
          (roundTo 2 (min 1 (max 0 (pget sp "anomaly_score" + j / 2))))⟩ := rfl

theorem tickSensor_other_eq (sid sty sloc sst : String) (slu j now : ℚ)
    (sp : List (String × ℚ)) (h1 : ¬sty = "Traffic") (h2 : ¬sty = "Utilities")
    (h3 : ¬sty = "Public Safety") :
    tickSensor ⟨sid, sty, sloc, slu, sst, sp⟩ j now =
      ⟨sid, sty, sloc, now, sst, sp⟩ := by
  unfold tickSensor
  dsimp only
  rw [if_neg h1, if_neg h2, if_neg h3]

/-- The telemetry mutation re-establishes every documented clamp on any
sensor whose payload carries its type's metric keys. -/
theorem tickSensor_clamps (s : Sensor) (j now : ℚ) (hk : sensorKeysOK s) :
    sensorClamps (tickSensor s j now) := by
  obtain ⟨sid, sty, sloc, slu, sst, sp⟩ := s
  obtain ⟨hkPS, hkU, hkT⟩ := hk
  by_cases h1 : sty = "Traffic"
  · subst h1
    rw [tickSensor_traffic_eq]
    obtain ⟨hv, hs⟩ := hkT rfl
    refine ⟨fun h => by simp at h, fun h => by simp at h, fun h => ?_⟩
    constructor
    · rw [pget_pset_ne "avg_speed_kmh" "vehicle_count" _ (by decide),
        pget_pset_self "vehicle_count" _ _ hv]
      exact_mod_cast le_max_left (0 : ℤ) _
    · rw [pget_pset_self "avg_speed_kmh" _ _
        ((hasKey_pset "vehicle_count" "avg_speed_kmh" _ sp).mpr hs)]
      exact le_max_left 0 _
  · by_cases h2 : sty = "Utilities"
    · subst h2
      rw [tickSensor_utilities_eq]
      obtain ⟨hph, hcl⟩ := hkU rfl
      refine ⟨fun h => by simp at h, fun h => ?_, fun h => by simp at h⟩
      refine ⟨?_, ?_, ?_⟩
      · rw [pget_pset_self "ph" _ _
          ((hasKey_pset "chlorine_ppm" "ph" _ sp).mpr hph)]
        have e1 : ((650 : ℤ) : ℚ) / 10 ^ 2 = 6.5 := by norm_num
        have hlo : ((650 : ℤ) : ℚ) / 10 ^ 2 ≤
            min 8.5 (max 6.5 (pget sp "ph" + j)) := by
          rw [e1, le_min_iff]
          exact ⟨by norm_num, le_max_left _ _⟩
        have h2 := roundTo_ge 2 _ 650 hlo
        rw [e1] at h2
        exact h2
      · rw [pget_pset_self "ph" _ _
          ((hasKey_pset "chlorine_ppm" "ph" _ sp).mpr hph)]
        have e2 : ((850 : ℤ) : ℚ) / 10 ^ 2 = 8.5 := by norm_num
        have hhi : min 8.5 (max 6.5 (pget sp "ph" + j)) ≤
            ((850 : ℤ) : ℚ) / 10 ^ 2 := by
          rw [e2]
          exact min_le_left _ _
        have h2 := roundTo_le 2 _ 850 hhi
        rw [e2] at h2
        exact h2
      · rw [pget_pset_ne "ph" "chlorine_ppm" _ (by decide),
          pget_pset_self "chlorine_ppm" _ _ hcl]
        exact roundTo_nonneg 2 _ (le_max_left 0 _)
    · by_cases h3 : sty = "Public Safety"
      · subst h3
        rw [tickSensor_publicSafety_eq]
        have hA := hkPS rfl
        refine ⟨fun h => ?_, fun h => by simp at h, fun h => by simp at h⟩
        constructor
        · rw [pget_pset_self "anomaly_score" _ _ hA]
          exact roundTo_nonneg 2 _
            (le_min (by norm_num) (le_max_left 0 _))
        · rw [pget_pset_self "anomaly_score" _ _ hA]
          have e3 : ((100 : ℤ) : ℚ) / 10 ^ 2 = 1 := by norm_num
          have hhi : min 1 (max 0 (pget sp "anomaly_score" + j / 2)) ≤
              ((100 : ℤ) : ℚ) / 10 ^ 2 := by
            rw [e3]
            exact min_le_left _ _
          have h2 := roundTo_le 2 _ 100 hhi
          rw [e3] at h2
          exact h2
      · rw [tickSensor_other_eq sid sty sloc sst slu j now sp h1 h2 h3]
        exact ⟨fun h => absurd h h3, fun h => absurd h h2,
          fun h => absurd h h1⟩

/-- The telemetry mutation never adds or removes payload keys. -/
theorem tickSensor_keys (s : Sensor) (j now : ℚ) (hk : sensorKeysOK s) :
    sensorKeysOK (tickSensor s j now) := by
  obtain ⟨sid, sty, sloc, slu, sst, sp⟩ := s
  obtain ⟨hkPS, hkU, hkT⟩ := hk
  by_cases h1 : sty = "Traffic"
  · subst h1
    rw [tickSensor_traffic_eq]
    obtain ⟨hv, hs⟩ := hkT rfl
    exact ⟨fun h => by simp at h, fun h => by simp at h, fun h =>
      ⟨(hasKey_pset _ _ _ _).mpr ((hasKey_pset _ _ _ _).mpr hv),
        (hasKey_pset _ _ _ _).mpr ((hasKey_pset _ _ _ _).mpr hs)⟩⟩
  · by_cases h2 : sty = "Utilities"
    · subst h2
      rw [tickSensor_utilities_eq]
      obtain ⟨hph, hcl⟩ := hkU rfl
      exact ⟨fun h => by simp at h, fun h =>
        ⟨(hasKey_pset _ _ _ _).mpr ((hasKey_pset _ _ _ _).mpr hph),
          (hasKey_pset _ _ _ _).mpr ((hasKey_pset _ _ _ _).mpr hcl)⟩,
        fun h => by simp at h⟩
    · by_cases h3 : sty = "Public Safety"
      · subst h3
        rw [tickSensor_publicSafety_eq]
        have hA := hkPS rfl
        exact ⟨fun h => (hasKey_pset _ _ _ _).mpr hA,
          fun h => by simp at h, fun h => by simp at h⟩
      · rw [tickSensor_other_eq sid sty sloc sst slu j now sp h1 h2 h3]
        exact ⟨hkPS, hkU, hkT⟩

theorem mutate_clamps (now : ℚ) :
    ∀ (sensors : List Sensor) (rng : RNG),
      (∀ s ∈ sensors, sensorKeysOK s) →
      (∀ s ∈ (mutate_sensor_payloads sensors rng now).1, sensorClamps s) ∧
      (∀ s ∈ (mutate_sensor_payloads sensors rng now).1, sensorKeysOK s) := by
  intro sensors
  induction sensors with
  | nil =>
      intro rng h
      simp [mutate_sensor_payloads]
  | cons a rest ih =>
      intro rng h
      have ha : sensorKeysOK a := h a (List.mem_cons_self a rest)
      have hrest : ∀ s ∈ rest, sensorKeysOK s :=
        fun s hs => h s (List.mem_cons_of_mem a hs)
      obtain ⟨ih1, ih2⟩ := ih (rng.uniformDraw).2 hrest
      constructor
      · intro s hs
        simp only [mutate_sensor_payloads, List.mem_cons] at hs
        rcases hs with hs | hs
        · subst hs
          exact tickSensor_clamps a _ now ha
        · exact ih1 s hs
      · intro s hs
        simp only [mutate_sensor_payloads, List.mem_cons] at hs
        rcases hs with hs | hs
        · subst hs
          exact tickSensor_keys a _ now ha
        · exact ih2 s hs

theorem iterateTicks_clamps :
    ∀ (n : ℕ) (sensors : List Sensor) (rng : RNG) (clk : ℕ → ℚ),
      (∀ s ∈ sensors, sensorKeysOK s) →
      (∀ s ∈ sensors, sensorClamps s) →
      ∀ s ∈ (iterateTicks n sensors rng clk).1, sensorClamps s := by
  intro n
  induction n with
  | zero =>
      intro sensors rng clk hk hc s hs
      exact hc s hs
  | succ k ih =>
      intro sensors rng clk hk hc
      have h := mutate_clamps (clk k) sensors rng hk
      exact ih _ _ _ h.2 h.1

/-- `sensorKeysOK` only inspects the type and payload fields. -/
theorem sensorKeysOK_fields (sid sty sloc : String) (slu : ℚ) (sst : String)
    (sp : List (String × ℚ)) :
    sensorKeysOK ⟨sid, sty, sloc, slu, sst, sp⟩ ↔
      sensorKeysOK ⟨"", sty, "", 0, "", sp⟩ := Iff.rfl

/-- `sensorClamps` only inspects the type and payload fields. -/
theorem sensorClamps_fields (sid sty sloc : String) (slu : ℚ) (sst : String)
    (sp : List (String × ℚ)) :
    sensorClamps ⟨sid, sty, sloc, slu, sst, sp⟩ ↔
      sensorClamps ⟨"", sty, "", 0, "", sp⟩ := Iff.rfl

/-- C6: starting from the seeded sensor set, after any number of simulator
ticks with any jitter stream every sensor respects its documented clamps —
Public Safety `anomaly_score ∈ [0, 1]`, Utilities `ph ∈ [6.5, 8.5]` and
`chlorine_ppm ≥ 0`, Traffic `vehicle_count ≥ 0` and `avg_speed_kmh ≥ 0`. -/
theorem repeated_ticks_respect_clamps (t0 : ℚ) (rng : RNG) (clk : ℕ → ℚ)
    (n : ℕ) :
    ∀ s ∈ (iterateTicks n (initialSensors t0) rng clk).1, sensorClamps s := by
  apply iterateTicks_clamps
  · intro s hs
    simp only [initialSensors, List.mem_cons, List.not_mem_nil,
      or_false] at hs
    rcases hs with h | h | h <;> subst h <;> rw [sensorKeysOK_fields] <;>
      decide
  · intro s hs
    simp only [initialSensors, List.mem_cons, List.not_mem_nil,
      or_false] at hs
    rcases hs with h | h | h
    · subst h
      exact ⟨fun h2 => by simp at h2, fun h2 => by simp at h2,
        fun h2 => ⟨by rw [pget_eval_head]; norm_num,
          by rw [pget_eval_tail _ _ _ (by decide), pget_eval_head];
             norm_num⟩⟩
    · subst h
      exact ⟨fun h2 => by simp at h2, fun h2 =>
        ⟨by rw [pget_eval_tail _ _ _ (by decide), pget_eval_head]; norm_num,
         by rw [pget_eval_tail _ _ _ (by decide), pget_eval_head]; norm_num,
         by rw [pget_eval_head]; norm_num⟩,
        fun h2 => by simp at h2⟩
    · subst h
      exact ⟨fun h2 => ⟨by rw [pget_eval_head]; norm_num,
          by rw [pget_eval_head]; norm_num⟩,
        fun h2 => by simp at h2, fun h2 => by simp at h2⟩

/-- Witness for C6: the seeded Traffic sensor after zero ticks. -/
theorem repeated_ticks_respect_clamps_witness :
    sensorClamps
      ⟨"traffic-001", "Traffic", "Central Station", (0 : ℚ) - 2 * 60,
        "warning", [("vehicle_count", 982), ("avg_speed_kmh", 8)]⟩ :=
  repeated_ticks_respect_clamps 0 ⟨fun _ => 0, fun _ => 0, 0⟩ (fun _ => 3) 0
    _ (List.mem_cons_self _ _)

/-! ### Claim theorem: average resolution minutes -/

theorem resolutionTimes_eq (incidents : List Incident) :
    resolutionTimes incidents =
      (incidents.filter (fun i => i.resolved_at.isSome)).map
        (fun i => (i.resolved_at.getD 0 -
          (match i.acknowledged_at with
           | some a => a
           | none => i.detected_at)) / 60) := by
  induction incidents with
  | nil => rfl
  | cons a rest ih =>
      cases hr : a.resolved_at with
      | none =>
          simpa [resolutionTimes, List.filterMap_cons, List.filter_cons,
            hr, minutesBetween] using ih
      | some t =>
          simpa [resolutionTimes, List.filterMap_cons, List.filter_cons,
            hr, minutesBetween] using ih

/-- C8: the metrics field `avg_resolution_minutes` equals the mean, rounded
to one decimal, of `(resolved_at − baseline)` in minutes over exactly the
incidents with a non-null `resolved_at`, the baseline being
`acknowledged_at` when non-null and `detected_at` otherwise; it is null
exactly when no incident is resolved. -/
theorem avg_resolution_matches_spec (incidents : List Incident) :
    (calculate_metrics incidents).avg_resolution_minutes =
      specAvgResolutionMinutes incidents := by
  unfold calculate_metrics specAvgResolutionMinutes
  dsimp only
  rw [resolutionTimes_eq]
  by_cases hE : incidents.filter (fun i => i.resolved_at.isSome) = []
  · rw [hE]
    rfl
  · have h1 : ((incidents.filter (fun i => i.resolved_at.isSome)).map
        (fun i => (i.resolved_at.getD 0 -
          (match i.acknowledged_at with
           | some a => a
           | none => i.detected_at)) / 60)).isEmpty = false := by
      rw [List.isEmpty_eq_false_iff_exists_mem]
      rcases List.exists_mem_of_ne_nil _ hE with ⟨i, hi⟩
      exact ⟨_, List.mem_map_of_mem _ hi⟩
    have h2 : (incidents.filter (fun i => i.resolved_at.isSome)).isEmpty =
        false := by
      rw [List.isEmpty_eq_false_iff_exists_mem]
      exact List.exists_mem_of_ne_nil _ hE
    rw [h1, h2]
    simp only [Bool.false_eq_true, if_false, List.length_map]

/-! ### Sorting lemmas for the simulation cycle -/

/-- The Boolean "has exactly score `q`" test used to state sort stability. -/
def scoreEq (q : ℚ) : ScoredSensor → Bool := fun c => decide (c.score = q)

theorem insertCand_perm (x : ScoredSensor) :
    ∀ l, (insertCand x l).Perm (x :: l) := by
  intro l
  induction l with
  | nil => exact List.Perm.refl _
  | cons y ys ih =>
      unfold insertCand
      by_cases hxy : y.score ≤ x.score
      · rw [if_pos hxy]
      · rw [if_neg hxy]
        exact (ih.cons y).trans (List.Perm.swap x y ys)

theorem sortCandidates_perm :
    ∀ l : List ScoredSensor, (sortCandidates l).Perm l := by
  intro l
  induction l with
  | nil => exact List.Perm.refl _
  | cons x xs ih =>
      unfold sortCandidates
      exact (insertCand_perm x (sortCandidates xs)).trans (ih.cons x)

theorem insertCand_sorted (x : ScoredSensor) :
    ∀ l, List.Pairwise (fun a b => b.score ≤ a.score) l →
      List.Pairwise (fun a b => b.score ≤ a.score) (insertCand x l) := by
  intro l
  induction l with
  | nil =>
      intro h
      simp [insertCand]
  | cons y ys ih =>
      intro h
      rw [List.pairwise_cons] at h
      obtain ⟨hy, hys⟩ := h
      unfold insertCand
      by_cases hxy : y.score ≤ x.score
      · rw [if_pos hxy]
        refine List.Pairwise.cons ?_ (List.Pairwise.cons hy hys)
        intro b hb
        rcases List.mem_cons.mp hb with hb | hb
        · subst hb
          exact hxy
        · exact le_trans (hy b hb) hxy
      · rw [if_neg hxy]
        refine List.Pairwise.cons ?_ (ih hys)
        intro b hb
        rcases List.mem_cons.mp ((insertCand_perm x ys).mem_iff.mp hb) with
          hb2 | hb2
        · subst hb2
          exact le_of_lt (lt_of_not_le hxy)
        · exact hy b hb2

theorem sortCandidates_sorted :
    ∀ l : List ScoredSensor,
      List.Pairwise (fun a b => b.score ≤ a.score) (sortCandidates l) := by
  intro l
  induction l with
  | nil => exact List.Pairwise.nil
  | cons x xs ih => exact insertCand_sorted x _ ih

theorem insertCand_filter (x : ScoredSensor) (q : ℚ) :
    ∀ l : List ScoredSensor,
      (insertCand x l).filter (scoreEq q) =
        if x.score = q then x :: l.filter (scoreEq q)
        else l.filter (scoreEq q) := by
  intro l
  induction l with
  | nil =>
      by_cases h : x.score = q
      · simp [insertCand, scoreEq, h]
      · simp [insertCand, scoreEq, h]
  | cons y ys ih =>
      unfold insertCand
      by_cases hxy : y.score ≤ x.score
      · rw [if_pos hxy]
        by_cases hx : x.score = q
        · rw [if_pos hx, List.filter_cons_of_pos (by simp [scoreEq, hx])]
        · rw [if_neg hx, List.filter_cons_of_neg (by simp [scoreEq, hx])]
      · rw [if_neg hxy]
        by_cases hy : y.score = q
        · by_cases hx : x.score = q
          · exact absurd (le_of_eq (hy.trans hx.symm)) hxy
          · rw [if_neg hx, List.filter_cons_of_pos (by simp [scoreEq, hy]),
              List.filter_cons_of_pos (by simp [scoreEq, hy]), ih,
              if_neg hx]
        · by_cases hx : x.score = q
          · rw [if_pos hx, List.filter_cons_of_neg (by simp [scoreEq, hy]),
              List.filter_cons_of_neg (by simp [scoreEq, hy]), ih,
              if_pos hx]
          · rw [if_neg hx, List.filter_cons_of_neg (by simp [scoreEq, hy]),
              List.filter_cons_of_neg (by simp [scoreEq, hy]), ih,
              if_neg hx]

theorem sortCandidates_filter (q : ℚ) :
    ∀ l : List ScoredSensor,
      (sortCandidates l).filter (scoreEq q) = l.filter (scoreEq q) := by
  intro l
  induction l with
  | nil => rfl
  | cons x xs ih =>
      unfold sortCandidates
      rw [insertCand_filter]
      by_cases hx : x.score = q
      · rw [if_pos hx, ih, List.filter_cons_of_pos (by simp [scoreEq, hx])]
      · rw [if_neg hx, ih, List.filter_cons_of_neg (by simp [scoreEq, hx])]

theorem find?_congr2 (pa pb : ScoredSensor → Bool) :
    ∀ l : List ScoredSensor, (∀ x ∈ l, pa x = pb x) →
      l.find? pa = l.find? pb := by
  intro l
  induction l with
  | nil =>
      intro h
      rfl
  | cons a rest ih =>
      intro h
      have ha := h a (List.mem_cons_self a rest)
      by_cases hp : pa a = true
      · rw [List.find?_cons_of_pos _ hp,
          List.find?_cons_of_pos _ (ha.symm.trans hp)]
      · rw [List.find?_cons_of_neg _ hp,
          List.find?_cons_of_neg _ (fun hc => hp (ha.trans hc))]
        exact ih (fun x hx => h x (List.mem_cons_of_mem a hx))

theorem find?_eq_filter_head2 (p : ScoredSensor → Bool) :
    ∀ l : List ScoredSensor, l.find? p = (l.filter p).head? := by
  intro l
  induction l with
  | nil => rfl
  | cons a rest ih =>
      by_cases hp : p a = true
      · rw [List.find?_cons_of_pos _ hp, List.filter_cons_of_pos hp]
        rfl
      · rw [List.find?_cons_of_neg _ hp, List.filter_cons_of_neg
          (by simpa using hp)]
        exact ih

/-- The head of the stable descending sort is the first element of the input
attaining the maximum score. -/
theorem sortCandidates_head_first_max (l : List ScoredSensor) (hl : l ≠ []) :
    ∃ top rest2, sortCandidates l = top :: rest2 ∧
      (∀ d ∈ l, d.score ≤ top.score) ∧
      l.find? (fun c => l.all fun d => decide (d.score ≤ c.score)) =
        some top := by
  have hperm := sortCandidates_perm l
  have hsorted := sortCandidates_sorted l
  cases hs : sortCandidates l with
  | nil =>
      rw [hs] at hperm
      exact absurd hperm.symm.eq_nil hl
  | cons top rest2 =>
      rw [hs] at hperm hsorted
      have htopl : top ∈ l := hperm.mem_iff.mp (List.mem_cons_self _ _)
      have hmax : ∀ d ∈ l, d.score ≤ top.score := by
        intro d hd
        rcases List.mem_cons.mp (hperm.mem_iff.mpr hd) with h | h
        · subst h
          exact le_refl _
        · exact (List.pairwise_cons.mp hsorted).1 d h
      refine ⟨top, rest2, rfl, hmax, ?_⟩
      have hcongr : l.find?
          (fun c => l.all fun d => decide (d.score ≤ c.score)) =
          l.find? (scoreEq top.score) := by
        apply find?_congr2
        intro x hx
        by_cases hxq : x.score = top.score
        · have h1 : (l.all fun d => decide (d.score ≤ x.score)) = true := by
            simp only [List.all_eq_true, decide_eq_true_eq]
            intro d hd
            rw [hxq]
            exact hmax d hd
          have h2 : scoreEq top.score x = true := by
            simp [scoreEq, hxq]
          rw [h1, h2]
        · have h1 : ¬((l.all fun d => decide (d.score ≤ x.score)) = true) := by
            rw [List.all_eq_true]
            intro hc
            have hc2 := hc top htopl
            rw [decide_eq_true_eq] at hc2
            exact hxq (le_antisymm (hmax x hx) hc2)
          have h2 : scoreEq top.score x = false := by
            simp [scoreEq, hxq]
          rw [h2, Bool.eq_false_iff]
          exact h1
      rw [hcongr, find?_eq_filter_head2, ← sortCandidates_filter top.score l,
        hs, List.filter_cons_of_pos (by simp [scoreEq])]
      rfl

theorem mutate_length (now : ℚ) :
    ∀ (sensors : List Sensor) (rng : RNG),
      (mutate_sensor_payloads sensors rng now).1.length = sensors.length := by
  intro sensors
  induction sensors with
  | nil =>
      intro rng
      rfl
  | cons a rest ih =>
      intro rng
      simp [mutate_sensor_payloads, ih]

/-- C7: one simulation cycle creates at most one incident; creates none when
every (post-tick) sensor classifies below 0.5; when it creates one, the
incident is built by `add_incident` from the recommendation for the
first maximum-scoring sensor (ties broken by sensor order); and the returned
score list is the candidate list sorted descending by score, stable on ties.
The classifier and recommender (`app/ai.py`) are arbitrary. -/
theorem simulate_event_spec (classify : Sensor → Classification)
    (recommend : Sensor → IncidentData) (sensors : List Sensor)
    (incidents : List Incident) (rng : RNG) (seq : ℤ) (now : ℚ)
    (hne : sensors ≠ []) :
    ∃ r : SimResult,
      simulate_event classify recommend sensors incidents rng seq now =
        some r ∧
      r.incidents.length ≤ incidents.length + 1 ∧
      ((∀ c ∈ candidatesOf classify r.sensors, c.score < 1/2) →
        r.created_incident = none ∧ r.incidents = incidents) ∧
      List.Pairwise (fun a b => b.score ≤ a.score) r.sensor_scores ∧
      (∀ q, r.sensor_scores.filter (scoreEq q) =
        (candidatesOf classify r.sensors).filter (scoreEq q)) ∧
      (∀ inc, r.created_incident = some inc →
        ∃ top, (candidatesOf classify r.sensors).find?
            (fun c => (candidatesOf classify r.sensors).all
              fun d => decide (d.score ≤ c.score)) = some top ∧
          1/2 ≤ top.score ∧
          inc = (add_incident (recommend top.sensor) incidents
            (mutate_sensor_payloads sensors rng now).2 seq now).1 ∧
          r.incidents = incidents ++ [inc]) := by
  have hlen := mutate_length now sensors rng
  have hm : (mutate_sensor_payloads sensors rng now).1 ≠ [] := by
    intro hc
    rw [hc] at hlen
    exact hne (List.length_eq_zero.mp hlen.symm)
  have hcne :
      candidatesOf classify (mutate_sensor_payloads sensors rng now).1 ≠
        [] := by
    intro hc
    exact hm (List.map_eq_nil_iff.mp hc)
  obtain ⟨top, rest2, hs, hmax, hfind⟩ :=
    sortCandidates_head_first_max _ hcne
  have htopmem : top ∈
      candidatesOf classify (mutate_sensor_payloads sensors rng now).1 := by
    have := (sortCandidates_perm
      (candidatesOf classify (mutate_sensor_payloads sensors rng now).1))
    rw [hs] at this
    exact this.mem_iff.mp (List.mem_cons_self _ _)
  have hsorted := sortCandidates_sorted
    (candidatesOf classify (mutate_sensor_payloads sensors rng now).1)
  rw [hs] at hsorted
  by_cases htop : (1 : ℚ)/2 ≤ top.score
  · have heq : simulate_event classify recommend sensors incidents rng seq
        now = some
        { created_incident := some (add_incident (recommend top.sensor)
            incidents (mutate_sensor_payloads sensors rng now).2 seq now).1
          sensor_scores := top :: rest2
          sensors := (mutate_sensor_payloads sensors rng now).1
          incidents := (add_incident (recommend top.sensor) incidents
            (mutate_sensor_payloads sensors rng now).2 seq now).2.1
          rng := (add_incident (recommend top.sensor) incidents
            (mutate_sensor_payloads sensors rng now).2 seq now).2.2.1
          seq := (add_incident (recommend top.sensor) incidents
            (mutate_sensor_payloads sensors rng now).2 seq now).2.2.2 } := by
      simp only [simulate_event, hs]
      rw [if_pos htop]
    refine ⟨_, heq, ?_, ?_, ?_, ?_, ?_⟩
    · show (incidents ++ [(add_incident (recommend top.sensor) incidents
        (mutate_sensor_payloads sensors rng now).2 seq now).1]).length ≤
        incidents.length + 1
      simp
    · intro hall
      exact absurd (hall top htopmem) (not_lt.mpr htop)
    · exact hsorted
    · intro q
      have := sortCandidates_filter q
        (candidatesOf classify (mutate_sensor_payloads sensors rng now).1)
      rw [hs] at this
      exact this
    · intro inc hinc
      have hinc2 : (add_incident (recommend top.sensor) incidents
          (mutate_sensor_payloads sensors rng now).2 seq now).1 = inc :=
        Option.some.inj hinc
      refine ⟨top, hfind, htop, hinc2.symm, ?_⟩
      show (add_incident (recommend top.sensor) incidents
        (mutate_sensor_payloads sensors rng now).2 seq now).2.1 =
        incidents ++ [inc]
      rw [← hinc2]
      rfl
  · have heq : simulate_event classify recommend sensors incidents rng seq
        now = some
        { created_incident := none
          sensor_scores := top :: rest2
          sensors := (mutate_sensor_payloads sensors rng now).1
          incidents := incidents
          rng := (mutate_sensor_payloads sensors rng now).2
          seq := seq } := by
      simp only [simulate_event, hs]
      rw [if_neg htop]
    refine ⟨_, heq, ?_, ?_, ?_, ?_, ?_⟩
    · exact Nat.le_succ _
    · intro hall
      exact ⟨rfl, rfl⟩
    · exact hsorted
    · intro q
      have := sortCandidates_filter q
        (candidatesOf classify (mutate_sensor_payloads sensors rng now).1)
      rw [hs] at this
      exact this
    · intro inc hinc
      exact Option.noConfusion hinc

/-- Witness for C7: a single seeded sensor under the constant-zero
classifier — no incident is created and the ranked list is the lone
candidate. -/
theorem simulate_event_spec_witness :
    ∃ r : SimResult,
      simulate_event (fun _ => ⟨0, "low"⟩) (fun _ => {}) [sensorW] []
        rngW 1001 7 = some r ∧
      r.incidents.length ≤ List.length ([] : List Incident) + 1 ∧
      ((∀ c ∈ candidatesOf (fun _ => ⟨0, "low"⟩) r.sensors,
          c.score < 1/2) →
        r.created_incident = none ∧ r.incidents = []) ∧
      List.Pairwise (fun a b => b.score ≤ a.score) r.sensor_scores ∧
      (∀ q, r.sensor_scores.filter (scoreEq q) =
        (candidatesOf (fun _ => ⟨0, "low"⟩) r.sensors).filter (scoreEq q)) ∧
      (∀ inc, r.created_incident = some inc →
        ∃ top, (candidatesOf (fun _ => ⟨0, "low"⟩) r.sensors).find?
            (fun c => (candidatesOf (fun _ => ⟨0, "low"⟩) r.sensors).all
              fun d => decide (d.score ≤ c.score)) = some top ∧
          1/2 ≤ top.score ∧
          inc = (add_incident ((fun _ => ({} : IncidentData)) top.sensor) []
            (mutate_sensor_payloads [sensorW] rngW 7).2 1001 7).1 ∧
          r.incidents = [] ++ [inc]) :=
  simulate_event_spec (fun _ => ⟨0, "low"⟩) (fun _ => {}) [sensorW] []
    rngW 1001 7 (List.cons_ne_nil _ _)

/-! ### Claim theorem: deep-copy-on-read semantics -/

theorem Heap.read_write_ne {α : Type} (h : Heap α) (d : α) (a b : ℕ)
    (v : α) (hne : a ≠ b) : (h.write a v).read d b = h.read d b := by
  unfold Heap.write Heap.read List.getD
  rw [List.get?_eq_getElem?, List.get?_eq_getElem?, List.getElem?_set_ne hne]

theorem allocCopies_cells {α : Type} :
    ∀ (vs : List α) (h : Heap α),
      (allocCopies h vs).1.cells = h.cells ++ vs := by
  intro vs
  induction vs with
  | nil =>
      intro h
      simp [allocCopies]
  | cons v rest ih =>
      intro h
      simp [allocCopies, Heap.alloc, ih]

theorem allocCopies_addrs {α : Type} :
    ∀ (vs : List α) (h : Heap α), ∀ a ∈ (allocCopies h vs).2,
      h.cells.length ≤ a := by
  intro vs
  induction vs with
  | nil =>
      intro h a ha
      simp [allocCopies] at ha
  | cons v rest ih =>
      intro h a ha
      simp only [allocCopies, Heap.alloc, List.mem_cons] at ha
      rcases ha with ha | ha
      · exact le_of_eq ha.symm
      · have := ih ⟨h.cells ++ [v]⟩ a ha
        simp only [Heap.alloc] at this
        simp at this
        omega

theorem allocCopies_read {α : Type} (d : α) :
    ∀ (vs : List α) (h : Heap α),
      readAll (allocCopies h vs).1 d (allocCopies h vs).2 = vs := by
  intro vs
  induction vs with
  | nil =>
      intro h
      rfl
  | cons v rest ih =>
      intro h
      show (allocCopies ⟨h.cells ++ [v]⟩ rest).1.read d h.cells.length ::
        readAll (allocCopies ⟨h.cells ++ [v]⟩ rest).1 d
          (allocCopies ⟨h.cells ++ [v]⟩ rest).2 = v :: rest
      congr 1
      · unfold Heap.read
        rw [allocCopies_cells]
        rw [List.getD_append _ _ _ _ (by simp)]
        rw [List.getD_append_right _ _ _ _ (le_refl _)]
        simp
      · exact ih ⟨h.cells ++ [v]⟩

theorem writeMany_read {α : Type} (d : α) (store : List ℕ) :
    ∀ (ms : List (ℕ × α)) (h : Heap α),
      (∀ m ∈ ms, m.1 ∉ store) →
      ∀ a ∈ store, (writeMany h ms).read d a = h.read d a := by
  intro ms
  induction ms with
  | nil =>
      intro h _ a _
      rfl
  | cons m rest ih =>
      intro h hm a ha
      have h1 : (writeMany (h.write m.1 m.2) rest).read d a =
          (h.write m.1 m.2).read d a :=
        ih _ (fun x hx => hm x (List.mem_cons_of_mem m hx)) a ha
      have h2 : (h.write m.1 m.2).read d a = h.read d a := by
        apply Heap.read_write_ne
        intro hc
        exact hm m (List.mem_cons_self m rest) (by rw [hc]; exact ha)
      exact h1.trans h2

/-- The generic deep-copy-on-read property of the heap-level accessor. -/
theorem hGetAll_copies (α : Type) (d : α) (h : Heap α) (store : List ℕ)
    (ms : List (ℕ × α))
    (hinv : ∀ a ∈ store, a < h.cells.length)
    (hms : ∀ m ∈ ms, m.1 ∈ (hGetAll h d store).2) :
    (∀ a ∈ (hGetAll h d store).2, a ∉ store) ∧
    readAll (hGetAll h d store).1 d (hGetAll h d store).2 =
      readAll h d store ∧
    readAll (writeMany (hGetAll h d store).1 ms) d store =
      readAll h d store := by
  have hfresh : ∀ a ∈ (hGetAll h d store).2, h.cells.length ≤ a :=
    fun a ha => allocCopies_addrs _ h a ha
  have hreads : ∀ a ∈ store, (hGetAll h d store).1.read d a =
      h.read d a := by
    intro a ha
    unfold Heap.read hGetAll
    rw [allocCopies_cells]
    exact List.getD_append _ _ _ _ (hinv a ha)
  have hm2 : ∀ m ∈ ms, m.1 ∉ store := by
    intro m hm hstore
    exact absurd (hinv _ hstore) (not_lt.mpr (hfresh _ (hms m hm)))
  refine ⟨?_, allocCopies_read d _ h, ?_⟩
  · intro a ha hstore
    exact absurd (hinv a hstore) (not_lt.mpr (hfresh a ha))
  · unfold readAll
    apply List.map_congr_left
    intro a ha
    exact (writeMany_read d store ms _ hm2 a ha).trans (hreads a ha)

/-- C9: `get_incidents` / `get_incident` / `get_sensors` return
deep copies: over incident heaps and sensor heaps alike, a read hands back
only fresh addresses (never the canonical collection's own), the copied
records carry exactly the canonical data, and after the caller mutates the
returned records arbitrarily, the canonical collection still reads exactly
as before — as if the mutations had never happened. -/
theorem store_reads_are_deep_copies :
    (∀ (d : Incident) (h : Heap Incident) (store : List ℕ)
      (ms : List (ℕ × Incident)),
      (∀ a ∈ store, a < h.cells.length) →
      (∀ m ∈ ms, m.1 ∈ (hGetAll h d store).2) →
      (∀ a ∈ (hGetAll h d store).2, a ∉ store) ∧
      readAll (hGetAll h d store).1 d (hGetAll h d store).2 =
        readAll h d store ∧
      readAll (writeMany (hGetAll h d store).1 ms) d store =
        readAll h d store) ∧
    (∀ (d : Sensor) (h : Heap Sensor) (store : List ℕ)
      (ms : List (ℕ × Sensor)),
      (∀ a ∈ store, a < h.cells.length) →
      (∀ m ∈ ms, m.1 ∈ (hGetAll h d store).2) →
      (∀ a ∈ (hGetAll h d store).2, a ∉ store) ∧
      readAll (hGetAll h d store).1 d (hGetAll h d store).2 =
        readAll h d store ∧
      readAll (writeMany (hGetAll h d store).1 ms) d store =
        readAll h d store) :=
  ⟨fun d h store ms hinv hms => hGetAll_copies Incident d h store ms hinv hms,
   fun d h store ms hinv hms => hGetAll_copies Sensor d h store ms hinv hms⟩

/-- Witness for C9: a one-incident heap; the caller overwrites the returned
copy (address 1) and the canonical record at address 0 is untouched. -/
theorem store_reads_are_deep_copies_witness :
    (∀ a ∈ (hGetAll ⟨[reresolvedInc]⟩ reresolvedInc [0]).2, a ∉ [0]) ∧
    readAll (hGetAll ⟨[reresolvedInc]⟩ reresolvedInc [0]).1 reresolvedInc
      (hGetAll ⟨[reresolvedInc]⟩ reresolvedInc [0]).2 =
      readAll ⟨[reresolvedInc]⟩ reresolvedInc [0] ∧
    readAll (writeMany (hGetAll ⟨[reresolvedInc]⟩ reresolvedInc [0]).1
        [(1, { reresolvedInc with title := "overwritten" })]) reresolvedInc
      [0] =
      readAll ⟨[reresolvedInc]⟩ reresolvedInc [0] :=
  store_reads_are_deep_copies.1 reresolvedInc ⟨[reresolvedInc]⟩ [0]
    [(1, { reresolvedInc with title := "overwritten" })]
    (by decide) (by decide)

end SmartCity
